import Mathlib

/-
Verification development for the DirTree core of this repository
(src/src/DirTree.cpp).  The data model and the operations are a shallow
embedding of `DirTree.cpp`; class members whose sources are not part of the
repository snapshot (FileInfo / DirInfo / LocalDirReadJob / DirReadJobQueue)
are modelled from the specification and carry a doc comment saying so.
Qt library functions are modelled as identities on opaque path strings.
-/

namespace QDirStat

/-- Kind tag of a tree node, the tagged variant of the source's dynamic
polymorphism over FileInfo / DirInfo / dot entry ("overflow grouping"). -/
inductive EntryKind where
  | plainFile
  | directory
  | dotEntry
  | rootKind
  | ignored
deriving DecidableEq, Repr

/-- Scalar attributes of one tree node: identity (url), kind, own size,
the cached aggregate totals a DirInfo carries, and the two status flags. -/
structure EntryData where
  url : String
  kind : EntryKind
  size : Nat
  totalSize : Nat
  totalItems : Nat
  isFinished : Bool
  isExcluded : Bool
deriving DecidableEq, Repr

/-- One node of the scanned tree: its data, its owned children (the source's
first-child/next-sibling list, kept as a Lean list in the same order), and
the optional overflow grouping ("dot entry") pseudo-child. -/
inductive Entry where
  | mk (data : EntryData) (children : List Entry) (dot : Option Entry)

def Entry.data : Entry → EntryData
  | .mk d _ _ => d

def Entry.children : Entry → List Entry
  | .mk _ cs _ => cs

def Entry.dot : Entry → Option Entry
  | .mk _ _ dt => dt

/-- One step of a path addressing a node inside the tree: either the i-th
entry of the children list or the dot entry. -/
inductive PathStep where
  | child (i : Nat)
  | dot
deriving DecidableEq, Repr

/-- Result of a successful lstat: directory bit and size. -/
structure StatInfo where
  isDir : Bool
  size : Nat
deriving DecidableEq, Repr

/-- The filesystem, abstracted: what a synchronous stat of a path returns. -/
def FS : Type := String → Option StatInfo

/-- Observer-visible notifications of DirTree (the Qt signals). -/
inductive Event where
  | clearing
  | startingReading
  | childAdded (e : Entry)
  | deletingChild (e : Entry)
  | childDeleted
  | readJobFinished (dir : Entry)
  | finished
  | aborted
  | finalizeLocal (dir : Option Entry)

/-- The DirTree state: the synthetic root (null only after the root itself
has been deleted), the _isBusy flag, and the pending read-job queue, each
job identified by the url of the directory it is bound to. -/
structure DirTreeState where
  root : Option Entry
  isBusy : Bool
  jobQueue : List String

/-- DirTree::firstToplevel from DirTree.cpp: the root's first child, null
when there is no root.  FileInfo::firstChild (not under src/) is modelled
from the spec as the head of the owned children list. -/
def firstToplevel (s : DirTreeState) : Option Entry :=
  match s.root with
  | none => none
  | some r => r.children.head?

/-- DirTree::url from DirTree.cpp: the real root's url, or the empty string
when there is no toplevel entry.  FileInfo::url (not under src/) is modelled
from the spec as the stored absolute url of the entry. -/
def url (s : DirTreeState) : String :=
  match firstToplevel s with
  | none => ""
  | some e => e.data.url

/-- A FileInfo reference as DirTree::isTopLevel sees it: the only structure
the function inspects is the chain of parent pointers. -/
inductive NodeRef where
  | mk (parent : Option NodeRef)

def NodeRef.parent : NodeRef → Option NodeRef
  | .mk p => p

/-- DirTree::isTopLevel from DirTree.cpp:
item and item->parent() and not item->parent()->parent(). -/
def isTopLevel (item : Option NodeRef) : Bool :=
  match item with
  | none => false
  | some i =>
    match i.parent with
    | none => false
    | some p => p.parent.isNone

/-- Modelled from the spec: FileInfo::hasChildren (source not under src/);
an entry has children iff it owns at least one child, the overflow grouping
counting as an addressable pseudo-child of its directory. -/
def Entry.hasChildren (e : Entry) : Bool :=
  !e.children.isEmpty || e.dot.isSome

/-- Modelled from the spec: DirInfo::clear (source not under src/);
"recursively empties the root without destroying the root Entry itself":
all children and the overflow grouping are dropped and the aggregates fall
back to the entry's own contribution. -/
def Entry.clearChildren : Entry → Entry
  | .mk d _ _ => .mk { d with totalSize := d.size, totalItems := 0 } [] none

/-- Modelled from the spec: DirInfo::insertChild (source not under src/);
the new child is pushed onto the front of the children list (the source's
first-child linked list) and the directory's aggregate totals are updated
incrementally by the child's contribution. -/
def Entry.insertChild : Entry → Entry → Entry
  | .mk d cs dt, c =>
      .mk { d with totalSize := d.totalSize + c.data.totalSize,
                   totalItems := d.totalItems + c.data.totalItems + 1 }
         (c :: cs) dt

/-- Looks up the node addressed by a path under the given entry. -/
def Entry.getAt : Entry → List PathStep → Option Entry
  | e, [] => some e
  | e, .child i :: p =>
      match e.children[i]? with
      | none => none
      | some c => c.getAt p
  | e, .dot :: p =>
      match e.dot with
      | none => none
      | some de => de.getAt p

/-- Aggregate decrement of a deleted subtree's contribution, per the spec's
invariant that "a deleted Entry's parent's aggregates are decremented by the
Entry's contribution before deallocation". -/
def decBy (d : EntryData) (victim : Entry) : EntryData :=
  { d with totalSize := d.totalSize - victim.data.totalSize,
           totalItems := d.totalItems - (victim.data.totalItems + 1) }

/-- Modelled from the spec: DirInfo::deletingChild plus the aggregate
propagation it triggers (sources not under src/); unlinks the node at the
path and decrements every ancestor's aggregates by the removed subtree's
contribution.  An invalid path, or the empty path, leaves the tree
unchanged (the corresponding call cannot arise from a live reference). -/
def Entry.removeAt : Entry → List PathStep → Entry
  | e, [] => e
  | .mk d cs dt, .child i :: p =>
      match cs[i]? with
      | none => .mk d cs dt
      | some c =>
          match p with
          | [] => .mk (decBy d c) (cs.eraseIdx i) dt
          | _ :: _ =>
              match c.getAt p with
              | none => .mk d cs dt
              | some victim => .mk (decBy d victim) (cs.set i (c.removeAt p)) dt
  | .mk d cs dt, .dot :: p =>
      match dt with
      | none => .mk d cs dt
      | some de =>
          match p with
          | [] => .mk (decBy d de) cs none
          | _ :: _ =>
              match de.getAt p with
              | none => .mk d cs dt
              | some victim => .mk (decBy d victim) cs (some (de.removeAt p))

/-- Modelled from the spec: inserting a freshly created subtree under the
node at the given path ("re-inserts the result under the same parent");
every ancestor's aggregates are incremented by the new subtree's
contribution ("recomputed incrementally on every insert").  An invalid path
leaves the tree unchanged. -/
def Entry.insertAt : Entry → List PathStep → Entry → Entry
  | e, [], c => e.insertChild c
  | .mk d cs dt, .child i :: p, c =>
      match cs[i]? with
      | none => .mk d cs dt
      | some ch =>
          .mk { d with totalSize := d.totalSize + c.data.totalSize,
                       totalItems := d.totalItems + c.data.totalItems + 1 }
             (cs.set i (ch.insertAt p c)) dt
  | .mk d cs dt, .dot :: p, c =>
      match dt with
      | none => .mk d cs dt
      | some de =>
          .mk { d with totalSize := d.totalSize + c.data.totalSize,
                       totalItems := d.totalItems + c.data.totalItems + 1 }
             cs (some (de.insertAt p c))

/-- Qt's QFileInfo::absoluteFilePath (library code outside the repository),
modelled as the identity on the model's opaque path strings. -/
def absoluteFilePath (s : String) : String := s

/-- Qt's QDir::cleanPath (library code outside the repository), modelled as
the identity on the model's opaque path strings. -/
def cleanPath (s : String) : String := s

/-- Modelled from the spec: LocalDirReadJob::stat (source not under src/);
performs the synchronous existence/type check on the path and on success
creates the Entry for it — a directory or plain-file node with the statted
size, not yet finished, with no children and no overflow grouping yet (the
grouping only appears once a read job reroutes overflow children into it).
On failure it returns nothing. -/
def statEntry (fs : FS) (u : String) : Option Entry :=
  match fs u with
  | none => none
  | some si =>
      if si.isDir then
        some (.mk { url := u, kind := .directory, size := si.size,
                    totalSize := si.size, totalItems := 0,
                    isFinished := false, isExcluded := false } [] none)
      else
        some (.mk { url := u, kind := .plainFile, size := si.size,
                    totalSize := si.size, totalItems := 0,
                    isFinished := false, isExcluded := false } [] none)

/-- DirTree::childAddedNotify from DirTree.cpp: emits childAdded for the
new child, and additionally for its dot entry when it has one. -/
def childAddedNotify (newChild : Entry) : List Event :=
  Event.childAdded newChild ::
    (match newChild.dot with
     | some de => [Event.childAdded de]
     | none => [])

/-- DirTree::clear from DirTree.cpp: empties the job queue; if a root is
present, emits clearing and recursively empties it (without destroying the
root Entry itself); finally resets the busy flag. -/
def clear (s : DirTreeState) : DirTreeState × List Event :=
  let s1 : DirTreeState := { s with jobQueue := [] }
  match s1.root with
  | some r =>
      ({ s1 with root := some r.clearChildren, isBusy := false },
       [Event.clearing])
  | none => ({ s1 with isBusy := false }, [])

/-- DirTree::startReading from DirTree.cpp, line by line: normalize the url,
set _isBusy = true, clear() when the root has children (note that clear()
resets _isBusy to false again), emit startingReading, stat the path
(readConfig has no observable effect in the model).  On stat success the
created entry becomes the tree's toplevel — the linking happens inside the
missing LocalDirReadJob::stat/constructor code, modelled here because the
spec requires the created root Entry to be the tree's toplevel — then
childAddedNotify runs, and a directory enqueues one read job (bound to the
directory, identified by its url) and emits readJobFinished(_root), while a
plain file resets the busy flag and emits readJobFinished(_root) and
finished.  On stat failure the busy flag is reset and finished and
finalizeLocal(null) are emitted.  The C++ dereferences _root
unconditionally; the model's root-missing branch returns the state
unchanged and is unreachable in the verified runs (the constructor
establishes a root). -/
def startReading (fs : FS) (s : DirTreeState) (rawUrl : String) :
    DirTreeState × List Event :=
  match s.root with
  | none => (s, [])
  | some r0 =>
      let u := absoluteFilePath rawUrl
      let s1 : DirTreeState := { s with isBusy := true }
      let ce := if r0.hasChildren then clear s1 else (s1, [])
      let s2 := ce.1
      let r2 := s2.root.getD r0
      let evs0 := ce.2 ++ [Event.startingReading]
      match statEntry fs u with
      | some item =>
          let r3 := r2.insertChild item
          let s3 : DirTreeState := { s2 with root := some r3 }
          let evs1 := evs0 ++ childAddedNotify item
          if item.data.kind = EntryKind.directory then
            ({ s3 with jobQueue := s3.jobQueue ++ [u] },
             evs1 ++ [Event.readJobFinished r3])
          else
            ({ s3 with isBusy := false },
             evs1 ++ [Event.readJobFinished r3, Event.finished])
      | none =>
          ({ s2 with isBusy := false },
           evs0 ++ [Event.finished, Event.finalizeLocal none])

/-- DirTree::refresh from DirTree.cpp.  The argument models the FileInfo
pointer: none is the C++ null pointer, some p the entry at path p under the
synthetic root, p = [] being the parentless synthetic root itself, so the
source's test (!subtree || !subtree->parent()) is none-or-[] here.  A path
that resolves to nothing would be a dangling pointer and is outside the
model (state unchanged), as is the full-refresh branch without a toplevel
entry, where the C++ dereferences the null firstToplevel().  In the subtree
branch the source saves url and parent, clears the excluded flag of the
node about to be destroyed (no observable effect in the model), emits
deletingChild, unlinks and destroys the subtree (parent->deletingChild plus
delete, modelled by removeAt), emits childDeleted, sets _isBusy = true,
emits startingReading and re-stats the saved url.  On stat success the new
node is inserted under the saved parent (insertAt models the
parent->insertChild call), childAddedNotify runs, and a directory enqueues
a read job while a plain file resets the busy flag and emits finished.  On
stat failure nothing further happens — in particular the busy flag stays
true. -/
def refresh (fs : FS) (s : DirTreeState) (t : Option (List PathStep)) :
    DirTreeState × List Event :=
  match s.root with
  | none => (s, [])
  | some r =>
      match t with
      | none =>
          match firstToplevel s with
          | none => (s, [])
          | some ft => startReading fs s (cleanPath ft.data.url)
      | some [] =>
          match firstToplevel s with
          | none => (s, [])
          | some ft => startReading fs s (cleanPath ft.data.url)
      | some (st :: p) =>
          match r.getAt (st :: p) with
          | none => (s, [])
          | some subtree =>
              let u := subtree.data.url
              let r1 := r.removeAt (st :: p)
              let s1 : DirTreeState := { s with root := some r1, isBusy := true }
              let evs :=
                [Event.deletingChild subtree, Event.childDeleted,
                 Event.startingReading]
              match statEntry fs u with
              | none => (s1, evs)
              | some sub =>
                  let r2 := r1.insertAt (st :: p).dropLast sub
                  let s2 : DirTreeState := { s1 with root := some r2 }
                  let evs1 := evs ++ childAddedNotify sub
                  if sub.data.kind = EntryKind.directory then
                    ({ s2 with jobQueue := s2.jobQueue ++ [u] }, evs1)
                  else
                    ({ s2 with isBusy := false }, evs1 ++ [Event.finished])

/-- DirTree::abortReading from DirTree.cpp: a no-op when the job queue is
empty; otherwise aborts the queue, resets the busy flag and emits aborted.
DirReadJobQueue::abort (source not under src/) is modelled from the spec:
"empties the job queue". -/
def abortReading (s : DirTreeState) : DirTreeState × List Event :=
  if s.jobQueue.isEmpty then (s, [])
  else ({ s with jobQueue := [], isBusy := false }, [Event.aborted])

/-- DirTree::deleteSubtree from DirTree.cpp, with the subtree given as a
path under the synthetic root ([] addressing the synthetic root itself).
deletingChildNotify is inlined: it emits deletingChild and nulls _root when
the deleted entry is the root.  The source then tests, while the subtree is
still linked under its parent, whether the parent is a dot entry without
children — only afterwards does parent->deletingChild(subtree) unlink the
child — so for any actually linked argument that condition is false; the
branch removing a now-empty dot entry (with the grandparent-finished check
and the leave-the-grouping-alone error branch for a parentless dot entry)
is kept in the model for faithfulness to the source's shape, but cannot
fire.  Finally the subtree is unlinked and destroyed (removeAt) and
childDeleted is emitted.  A path resolving to nothing models a dangling
pointer and is outside the model. -/
def deleteSubtree (s : DirTreeState) (p : List PathStep) :
    DirTreeState × List Event :=
  match s.root with
  | none => (s, [])
  | some r =>
      match r.getAt p with
      | none => (s, [])
      | some subtree =>
          match p with
          | [] =>
              ({ s with root := none },
               [Event.deletingChild subtree, Event.childDeleted])
          | _ :: _ =>
              let pp := p.dropLast
              let evs1 := [Event.deletingChild subtree]
              match r.getAt pp with
              | none => (s, [])
              | some parent =>
                  if parent.data.kind = EntryKind.dotEntry &&
                      !parent.hasChildren then
                    if 1 ≤ pp.length then
                      match r.getAt pp.dropLast with
                      | some gp =>
                          if gp.data.isFinished then
                            ({ s with root := some ((r.removeAt p).removeAt pp) },
                             evs1 ++ [Event.deletingChild parent,
                                      Event.childDeleted])
                          else
                            ({ s with root := some (r.removeAt p) },
                             evs1 ++ [Event.childDeleted])
                      | none =>
                          ({ s with root := some (r.removeAt p) },
                           evs1 ++ [Event.childDeleted])
                    else
                      ({ s with root := some (r.removeAt p) },
                       evs1 ++ [Event.childDeleted])
                  else
                    ({ s with root := some (r.removeAt p) },
                     evs1 ++ [Event.childDeleted])

/-- One user-visible tree operation, for reasoning about whole operation
sequences. -/
inductive Op where
  | startScan (u : String)
  | refreshOp (t : Option (List PathStep))
  | deleteSub (p : List PathStep)
  | clearOp
  | abortOp

/-- State reached by one operation (the emitted notifications dropped). -/
def applyOp (fs : FS) (s : DirTreeState) : Op → DirTreeState
  | .startScan u => (startReading fs s u).1
  | .refreshOp t => (refresh fs s t).1
  | .deleteSub p => (deleteSubtree s p).1
  | .clearOp => (clear s).1
  | .abortOp => (abortReading s).1

/-- State reached by a sequence of operations. -/
def run (fs : FS) (s : DirTreeState) : List Op → DirTreeState
  | [] => s
  | op :: ops => run fs (applyOp fs s op) ops

theorem statEntry_eq_none {fs : FS} {u : String} (h : fs u = none) :
    statEntry fs u = none := by
  simp [statEntry, h]

theorem Entry.children_clearChildren (e : Entry) :
    e.clearChildren.children = [] := by
  cases e; rfl

theorem Entry.children_eq_nil_of_not_hasChildren {e : Entry}
    (h : e.hasChildren = false) : e.children = [] := by
  cases e with
  | mk d cs dt =>
      simp [Entry.hasChildren, Entry.children, Entry.dot] at h ⊢
      exact h.1

/-- Scalar data of the synthetic root created by the DirTree constructor. -/
def rootData : EntryData :=
  { url := "", kind := EntryKind.rootKind, size := 0, totalSize := 0,
    totalItems := 0, isFinished := false, isExcluded := false }

/-- The synthetic root as the DirTree constructor creates it. -/
def emptyRoot : Entry := .mk rootData [] none

/-- A freshly constructed tree. -/
def s0 : DirTreeState := { root := some emptyRoot, isBusy := false, jobQueue := [] }

/-- A filesystem on which every stat fails. -/
def fsNone : FS := fun _ => none

/-- Claim C1: for every path whose initial synchronous stat fails,
startScan surfaces the failure: it leaves the tree with no toplevel
content, sets isBusy to false, and emits finalizeLocal with a null
directory; no scan job is enqueued and no childAdded notification is
raised. -/
theorem C1_startScan_stat_failure (fs : FS) (s : DirTreeState) (r : Entry)
    (u : String) (hr : s.root = some r)
    (hstat : fs (absoluteFilePath u) = none) :
    firstToplevel (startReading fs s u).1 = none ∧
    (startReading fs s u).1.isBusy = false ∧
    Event.finalizeLocal none ∈ (startReading fs s u).2 ∧
    (∀ e, Event.childAdded e ∉ (startReading fs s u).2) ∧
    ((startReading fs s u).1.jobQueue = [] ∨
      (startReading fs s u).1.jobQueue = s.jobQueue) := by
  obtain ⟨sr, sb, sq⟩ := s
  simp only [DirTreeState.root] at hr
  subst hr
  by_cases hc : r.hasChildren
  · simp [startReading, hc, clear, statEntry_eq_none hstat, firstToplevel,
      Entry.children_clearChildren]
  · simp only [Bool.not_eq_true] at hc
    simp [startReading, hc, statEntry_eq_none hstat, firstToplevel,
      Entry.children_eq_nil_of_not_hasChildren hc]

/-- Witness for claim C1 at a concrete input: the fresh tree scanned on a
filesystem whose stat always fails. -/
theorem C1_witness :
    firstToplevel (startReading fsNone s0 "a").1 = none ∧
    (startReading fsNone s0 "a").1.isBusy = false ∧
    Event.finalizeLocal none ∈ (startReading fsNone s0 "a").2 ∧
    (∀ e, Event.childAdded e ∉ (startReading fsNone s0 "a").2) ∧
    ((startReading fsNone s0 "a").1.jobQueue = [] ∨
      (startReading fsNone s0 "a").1.jobQueue = s0.jobQueue) :=
  C1_startScan_stat_failure fsNone s0 emptyRoot "a" rfl rfl

/-- A plain file left over from a previous, completed scan. -/
def fileA : Entry :=
  .mk { url := "a", kind := EntryKind.plainFile, size := 10, totalSize := 10,
        totalItems := 0, isFinished := true, isExcluded := false } [] none

/-- A tree that already holds content: the root owns fileA. -/
def preFilled : DirTreeState :=
  { root := some (.mk { rootData with totalSize := 10, totalItems := 1 }
      [fileA] none),
    isBusy := false, jobQueue := [] }

/-- A filesystem where the path "d" stats as a directory. -/
def fsD : FS := fun u => if u = "d" then some { isDir := true, size := 4096 } else none

/-- The entry the modelled stat creates for "d". -/
def dirD : Entry :=
  .mk { url := "d", kind := EntryKind.directory, size := 4096,
        totalSize := 4096, totalItems := 0, isFinished := false,
        isExcluded := false } [] none

/-- Claim C2, evaluated at its failing input.  startScan of the directory
"d" on a tree whose root already has children does create the root-level
Entry, raise childAdded for it and enqueue exactly one read job — but it
leaves isBusy == false, not true: startReading sets _isBusy = true before
calling clear(), and clear() resets it to false with nothing setting it
again.  The claim's directory case requires isBusy == true here. -/
theorem C2_busy_flag_eval :
    (startReading fsD preFilled "d").1.isBusy = false ∧
    (startReading fsD preFilled "d").1.jobQueue = ["d"] ∧
    Event.childAdded dirD ∈ (startReading fsD preFilled "d").2 := by
  refine ⟨rfl, rfl, ?_⟩
  have h : (startReading fsD preFilled "d").2 =
      [Event.clearing, Event.startingReading, Event.childAdded dirD,
       Event.readJobFinished (Entry.insertChild (Entry.clearChildren
         (.mk { rootData with totalSize := 10, totalItems := 1 } [fileA] none))
         dirD)] := rfl
  rw [h]
  simp

/-- A tree in mid-scan: busy, with one pending read job. -/
def sBusy : DirTreeState :=
  { root := some emptyRoot, isBusy := true, jobQueue := ["d"] }

/-- Claim C3: abort() is idempotent: a no-op (no state change, no
notification) on an empty job queue; on a non-empty queue it empties the
queue, leaves isBusy == false and raises exactly one aborted notification,
so a second immediate abort() changes nothing. -/
theorem C3_abort_idempotent (s : DirTreeState) :
    (s.jobQueue = [] → abortReading s = (s, [])) ∧
    (s.jobQueue ≠ [] →
      (abortReading s).1.jobQueue = [] ∧
      (abortReading s).1.isBusy = false ∧
      (abortReading s).2 = [Event.aborted]) ∧
    abortReading (abortReading s).1 = ((abortReading s).1, []) := by
  by_cases h : s.jobQueue = []
  · simp [abortReading, h]
  · simp [abortReading, h]

/-- Witness for claim C3 at concrete inputs: the fresh idle tree (empty
queue) and a busy tree with one pending job. -/
theorem C3_witness :
    abortReading s0 = (s0, []) ∧
    (abortReading sBusy).1.jobQueue = [] ∧
    (abortReading sBusy).1.isBusy = false ∧
    (abortReading sBusy).2 = [Event.aborted] :=
  ⟨(C3_abort_idempotent s0).1 rfl,
   (C3_abort_idempotent sBusy).2.1 (by simp [sBusy])⟩

/-- Claim C4: for every tree with a toplevel entry, refresh with a null
entry or with the (synthetic) root Entry is equivalent to re-running
startScan on the existing root's path: the same state and the same
notification sequence. -/
theorem C4_refresh_root_equiv (fs : FS) (s : DirTreeState) (ft : Entry)
    (h : firstToplevel s = some ft) :
    refresh fs s none = startReading fs s (cleanPath ft.data.url) ∧
    refresh fs s (some []) = startReading fs s (cleanPath ft.data.url) := by
  obtain ⟨sr, sb, sq⟩ := s
  cases sr with
  | none => simp [firstToplevel] at h
  | some r => simp [refresh, h]

/-- Witness for claim C4 at a concrete input: a tree whose toplevel is
fileA. -/
theorem C4_witness :
    refresh fsNone preFilled none =
      startReading fsNone preFilled (cleanPath fileA.data.url) ∧
    refresh fsNone preFilled (some []) =
      startReading fsNone preFilled (cleanPath fileA.data.url) :=
  C4_refresh_root_equiv fsNone preFilled fileA rfl

theorem get_set_self {α : Type _} (l : List α) (i : Nat) (a b : α)
    (h : l[i]? = some a) : (l.set i b)[i]? = some b := by
  induction l generalizing i with
  | nil => simp at h
  | cons x xs ih =>
      cases i with
      | zero => simp [List.set]
      | succ n => simpa [List.set] using ih n (by simpa using h)

theorem Entry.data_removeAt {p : List PathStep} {e victim : Entry}
    (hne : p ≠ []) (hv : e.getAt p = some victim) :
    (e.removeAt p).data = decBy e.data victim := by
  cases p with
  | nil => exact absurd rfl hne
  | cons st rest =>
      cases e with
      | mk d cs dt =>
          cases st with
          | child i =>
              cases hg : cs[i]? with
              | none => simp [Entry.getAt, Entry.children, hg] at hv
              | some c =>
                  cases rest with
                  | nil =>
                      have hc : c = victim := by
                        simpa [Entry.getAt, Entry.children, hg] using hv
                      subst hc
                      simp [Entry.removeAt, hg, Entry.data]
                  | cons st2 rest2 =>
                      have hv2 : c.getAt (st2 :: rest2) = some victim := by
                        simpa [Entry.getAt, Entry.children, hg] using hv
                      simp [Entry.removeAt, hg, hv2, Entry.data]
          | dot =>
              cases hg : dt with
              | none => simp [Entry.getAt, Entry.dot, hg] at hv
              | some de =>
                  cases rest with
                  | nil =>
                      have hc : de = victim := by
                        simpa [Entry.getAt, Entry.dot, hg] using hv
                      subst hc
                      simp [Entry.removeAt, Entry.data]
                  | cons st2 rest2 =>
                      have hv2 : de.getAt (st2 :: rest2) = some victim := by
                        simpa [Entry.getAt, Entry.dot, hg] using hv
                      simp [Entry.removeAt, hv2, Entry.data]

theorem Entry.getAt_removeAt_ancestor (p1 p2 : List PathStep)
    (e victim : Entry) (hne : p2 ≠ [])
    (hv : e.getAt (p1 ++ p2) = some victim) :
    ((e.removeAt (p1 ++ p2)).getAt p1).map Entry.data =
      (e.getAt p1).map (fun a => decBy a.data victim) := by
  induction p1 generalizing e with
  | nil =>
      simp only [List.nil_append] at hv ⊢
      simp [Entry.getAt, Entry.data_removeAt hne hv]
  | cons st q ih =>
      simp only [List.cons_append] at hv ⊢
      cases e with
      | mk d cs dt =>
          cases st with
          | child i =>
              cases hg : cs[i]? with
              | none => simp [Entry.getAt, Entry.children, hg] at hv
              | some c =>
                  have hv2 : c.getAt (q ++ p2) = some victim := by
                    simpa [Entry.getAt, Entry.children, hg] using hv
                  have hq := ih c hv2
                  cases hqp : q ++ p2 with
                  | nil =>
                      rcases List.append_eq_nil.mp hqp with ⟨h1, h2⟩
                      exact absurd h2 hne
                  | cons a as =>
                      rw [hqp] at hv2 hq
                      have hgs := get_set_self cs i c (c.removeAt (a :: as)) hg
                      simp [Entry.removeAt, Entry.getAt, Entry.children,
                        hg, hv2, hgs, hq]
          | dot =>
              cases hg : dt with
              | none => simp [Entry.getAt, Entry.dot, hg] at hv
              | some de =>
                  have hv2 : de.getAt (q ++ p2) = some victim := by
                    simpa [Entry.getAt, Entry.dot, hg] using hv
                  have hq := ih de hv2
                  cases hqp : q ++ p2 with
                  | nil =>
                      rcases List.append_eq_nil.mp hqp with ⟨h1, h2⟩
                      exact absurd h2 hne
                  | cons a as =>
                      rw [hqp] at hv2 hq
                      simp [Entry.removeAt, Entry.getAt, Entry.dot,
                        hv2, hq]

/-- Claim C5 (amended): for every non-root entry whose on-disk path no
longer exists, refresh removes the old subtree (deletingChild and
childDeleted raised, every ancestor's aggregates decremented by the
subtree's contribution and otherwise unchanged), emits startingReading,
inserts nothing, enqueues no job, surfaces no error notification — and
leaves the tree stuck in the busy state (isBusy == true). -/
theorem C5_refresh_missing_subtree (fs : FS) (s : DirTreeState)
    (r victim : Entry) (st : PathStep) (p : List PathStep)
    (hr : s.root = some r) (hv : r.getAt (st :: p) = some victim)
    (hstat : fs victim.data.url = none) :
    refresh fs s (some (st :: p)) =
      ({ root := some (r.removeAt (st :: p)), isBusy := true,
         jobQueue := s.jobQueue },
       [Event.deletingChild victim, Event.childDeleted,
        Event.startingReading]) ∧
    (∀ q rest, st :: p = q ++ rest → rest ≠ [] →
      ((r.removeAt (st :: p)).getAt q).map Entry.data =
        (r.getAt q).map (fun a => decBy a.data victim)) := by
  constructor
  · obtain ⟨sr, sb, sq⟩ := s
    simp only [DirTreeState.root] at hr
    subst hr
    simp [refresh, hv, statEntry_eq_none hstat]
  · intro q rest hqr hrest
    rw [hqr] at hv ⊢
    exact Entry.getAt_removeAt_ancestor q rest r victim hrest hv

/-- The plain file at path [child 0, child 0], deleted from disk. -/
def fileMissing : Entry :=
  .mk { url := "pa", kind := EntryKind.plainFile, size := 5, totalSize := 5,
        totalItems := 0, isFinished := true, isExcluded := false } [] none

/-- A sibling of fileMissing that is still on disk. -/
def fileB : Entry :=
  .mk { url := "pb", kind := EntryKind.plainFile, size := 3, totalSize := 3,
        totalItems := 0, isFinished := true, isExcluded := false } [] none

/-- A finished directory holding fileMissing and fileB. -/
def dirP : Entry :=
  .mk { url := "p", kind := EntryKind.directory, size := 100,
        totalSize := 108, totalItems := 2, isFinished := true,
        isExcluded := false } [fileMissing, fileB] none

/-- Synthetic root owning dirP. -/
def r5 : Entry :=
  .mk { rootData with totalSize := 108, totalItems := 3 } [dirP] none

/-- A fully scanned, idle tree over dirP. -/
def s5 : DirTreeState := { root := some r5, isBusy := false, jobQueue := [] }

/-- The filesystem after fileMissing ("pa") was deleted from disk. -/
def fs5 : FS := fun u =>
  if u = "pb" then some { isDir := false, size := 3 }
  else if u = "p" then some { isDir := true, size := 100 }
  else none

/-- Claim C5, refuted as stated at a concrete input: refreshing the
vanished file "pa" raises only deletingChild, childDeleted and
startingReading, and the tree DOES remain stuck in the busy state —
isBusy is left true with an empty job queue, contradicting the claim's
"the tree does not remain stuck in the busy state". -/
theorem C5_counterexample :
    (refresh fs5 s5 (some [PathStep.child 0, PathStep.child 0])).2 =
      [Event.deletingChild fileMissing, Event.childDeleted,
       Event.startingReading] ∧
    (refresh fs5 s5 (some [PathStep.child 0, PathStep.child 0])).1.jobQueue
      = [] ∧
    ¬ ((refresh fs5 s5
        (some [PathStep.child 0, PathStep.child 0])).1.isBusy = false) := by
  exact ⟨rfl, rfl, by decide⟩

/-- Witness for claim C5 (amended) at the concrete input of the
counterexample: the conclusion instantiated with the ancestor dirP. -/
theorem C5_witness :
    refresh fs5 s5 (some [PathStep.child 0, PathStep.child 0]) =
      ({ root := some (r5.removeAt [PathStep.child 0, PathStep.child 0]),
         isBusy := true, jobQueue := s5.jobQueue },
       [Event.deletingChild fileMissing, Event.childDeleted,
        Event.startingReading]) ∧
    ((r5.removeAt [PathStep.child 0, PathStep.child 0]).getAt
        [PathStep.child 0]).map Entry.data =
      (r5.getAt [PathStep.child 0]).map
        (fun a => decBy a.data fileMissing) :=
  ⟨(C5_refresh_missing_subtree fs5 s5 r5 fileMissing
      (PathStep.child 0) [PathStep.child 0] rfl rfl rfl).1,
   (C5_refresh_missing_subtree fs5 s5 r5 fileMissing
      (PathStep.child 0) [PathStep.child 0] rfl rfl rfl).2
     [PathStep.child 0] [PathStep.child 0] rfl (by decide)⟩

/-- A plain file rerouted into an overflow grouping. -/
def fileF : Entry :=
  .mk { url := "df", kind := EntryKind.plainFile, size := 7, totalSize := 7,
        totalItems := 0, isFinished := true, isExcluded := false } [] none

/-- An overflow grouping (dot entry) whose only child is fileF. -/
def dotG : Entry :=
  .mk { url := "dg", kind := EntryKind.dotEntry, size := 0, totalSize := 7,
        totalItems := 1, isFinished := true, isExcluded := false }
     [fileF] none

/-- A finished directory owning the overflow grouping dotG. -/
def dirD6 : Entry :=
  .mk { url := "d6", kind := EntryKind.directory, size := 50,
        totalSize := 57, totalItems := 2, isFinished := true,
        isExcluded := false } [] (some dotG)

/-- Synthetic root owning dirD6. -/
def r6 : Entry :=
  .mk { rootData with totalSize := 57, totalItems := 3 } [dirD6] none

/-- A fully scanned, idle tree over dirD6. -/
def s6 : DirTreeState := { root := some r6, isBusy := false, jobQueue := [] }

/-- Path of fileF: the only child of the dot entry of the first toplevel. -/
def p6 : List PathStep := [PathStep.child 0, PathStep.dot, PathStep.child 0]

/-- Claim C6, evaluated at its failing input.  Deleting the last child of an
overflow grouping whose owning directory has finished reading leaves the
now-empty grouping in place and raises no deleting/removal notifications
for it: the source tests parent->hasChildren() before
parent->deletingChild(subtree) unlinks the child, so the removal branch
never fires for a linked child — contradicting the claim (and the
source's own comments, which describe removing the "now empty" grouping
after its "last child" is deleted). -/
theorem C6_dot_entry_retained_eval :
    (deleteSubtree s6 p6).2 =
      [Event.deletingChild fileF, Event.childDeleted] ∧
    ((deleteSubtree s6 p6).1.root.bind
        (fun r => r.getAt [PathStep.child 0, PathStep.dot])).isSome = true ∧
    ((deleteSubtree s6 p6).1.root.bind
        (fun r => r.getAt [PathStep.child 0, PathStep.dot])).map
        Entry.hasChildren = some false ∧
    ((deleteSubtree s6 p6).1.root.bind
        (fun r => r.getAt [PathStep.child 0])).map
        (fun e => e.data.isFinished) = some true := by
  exact ⟨rfl, rfl, rfl, rfl⟩

theorem startReading_root_isSome (fs : FS) (s : DirTreeState) (u : String)
    (h : s.root.isSome) : (startReading fs s u).1.root.isSome := by
  obtain ⟨sr, sb, sq⟩ := s
  cases sr with
  | none => simp at h
  | some r =>
      by_cases hc : r.hasChildren
      · cases hst : statEntry fs (absoluteFilePath u) with
        | none => simp [startReading, hc, clear, hst]
        | some item =>
            by_cases hk : item.data.kind = EntryKind.directory
            · simp [startReading, hc, clear, hst, hk]
            · simp [startReading, hc, clear, hst, hk]
      · simp only [Bool.not_eq_true] at hc
        cases hst : statEntry fs (absoluteFilePath u) with
        | none => simp [startReading, hc, hst]
        | some item =>
            by_cases hk : item.data.kind = EntryKind.directory
            · simp [startReading, hc, hst, hk]
            · simp [startReading, hc, hst, hk]

theorem refresh_root_isSome (fs : FS) (s : DirTreeState)
    (t : Option (List PathStep)) (h : s.root.isSome) :
    (refresh fs s t).1.root.isSome := by
  obtain ⟨sr, sb, sq⟩ := s
  cases sr with
  | none => simp at h
  | some r =>
      cases t with
      | none =>
          cases hft : firstToplevel ⟨some r, sb, sq⟩ with
          | none => simp [refresh, hft]
          | some ft =>
              have := startReading_root_isSome fs ⟨some r, sb, sq⟩
                (cleanPath ft.data.url) (by simp)
              simpa [refresh, hft] using this
      | some p =>
          cases p with
          | nil =>
              cases hft : firstToplevel ⟨some r, sb, sq⟩ with
              | none => simp [refresh, hft]
              | some ft =>
                  have := startReading_root_isSome fs ⟨some r, sb, sq⟩
                    (cleanPath ft.data.url) (by simp)
                  simpa [refresh, hft] using this
          | cons st p =>
              cases hv : r.getAt (st :: p) with
              | none => simp [refresh, hv]
              | some subtree =>
                  cases hst : statEntry fs subtree.data.url with
                  | none => simp [refresh, hv, hst]
                  | some sub =>
                      by_cases hk : sub.data.kind = EntryKind.directory
                      · simp [refresh, hv, hst, hk]
                      · simp [refresh, hv, hst, hk]

theorem deleteSubtree_root_isSome (s : DirTreeState) (p : List PathStep)
    (hp : p ≠ []) (h : s.root.isSome) :
    (deleteSubtree s p).1.root.isSome := by
  obtain ⟨sr, sb, sq⟩ := s
  cases sr with
  | none => simp at h
  | some r =>
      cases hv : r.getAt p with
      | none => simp [deleteSubtree, hv]
      | some subtree =>
          cases p with
          | nil => exact absurd rfl hp
          | cons st p2 =>
              cases hpp : r.getAt (st :: p2).dropLast with
              | none => simp [deleteSubtree, hv, hpp]
              | some parent =>
                  simp only [deleteSubtree, hv, hpp]
                  repeat' split
                  all_goals simp

theorem clear_root_isSome (s : DirTreeState) (h : s.root.isSome) :
    (clear s).1.root.isSome := by
  obtain ⟨sr, sb, sq⟩ := s
  cases sr with
  | none => simp at h
  | some r => simp [clear]

theorem abortReading_root_eq (s : DirTreeState) :
    (abortReading s).1.root = s.root := by
  by_cases h : s.jobQueue.isEmpty <;> simp [abortReading, h]

theorem applyOp_root_isSome (fs : FS) (s : DirTreeState) (op : Op)
    (hop : ∀ p, op = Op.deleteSub p → p ≠ []) (h : s.root.isSome) :
    (applyOp fs s op).root.isSome := by
  cases op with
  | startScan u => exact startReading_root_isSome fs s u h
  | refreshOp t => exact refresh_root_isSome fs s t h
  | deleteSub p => exact deleteSubtree_root_isSome s p (hop p rfl) h
  | clearOp => exact clear_root_isSome s h
  | abortOp => simpa [applyOp, abortReading_root_eq] using h

/-- Claim C7 (amended): for every operation sequence in which deleteSubtree
is never applied to the tree's root entry itself, the tree keeps its one
root at every step; deleteSubtree on the root sets the root to null, and
none of startScan, refresh, clear or abort restores it, so that tree stays
rootless persistently. -/
theorem C7_root_persists (fs : FS) (s : DirTreeState) (ops : List Op)
    (hs : s.root.isSome)
    (hops : ∀ p, Op.deleteSub p ∈ ops → p ≠ []) :
    (run fs s ops).root.isSome := by
  induction ops generalizing s with
  | nil => simpa [run] using hs
  | cons op rest ih =>
      simp only [run]
      refine ih (applyOp fs s op) ?_ ?_
      · exact applyOp_root_isSome fs s op
          (fun p hp => hops p (by simp [hp])) hs
      · intro p hp
        exact hops p (List.mem_cons_of_mem _ hp)

/-- Claim C7, refuted as stated at a concrete input: deleteSubtree applied
to the root entry of a fresh tree leaves the tree without a root, and the
subsequent refresh, clear and abort calls do not restore one — the tree is
persistently rootless. -/
theorem C7_counterexample :
    (run fsNone s0
      [Op.deleteSub [], Op.refreshOp none, Op.clearOp, Op.abortOp]).root =
      none := rfl

/-- Witness for claim C7 (amended) at a concrete input: a sequence of all
five operations, deleting only a non-root entry, keeps the root present. -/
theorem C7_witness :
    (run fsNone s5
      [Op.startScan "x", Op.refreshOp none, Op.deleteSub [PathStep.child 0],
       Op.clearOp, Op.abortOp]).root.isSome :=
  C7_root_persists fsNone s5 _ rfl
    (by
      intro p hp
      simp only [List.mem_cons, List.not_mem_nil, or_false] at hp
      rcases hp with h | h | h | h | h <;> simp_all)

/-- Claim C9: insertion notification for a child that carries an overflow
grouping raises childAdded twice, first for the child, then for its
grouping; a child without a grouping raises exactly one childAdded. -/
theorem C9_childAddedNotify_events (c : Entry) :
    (∀ de, c.dot = some de →
      childAddedNotify c = [Event.childAdded c, Event.childAdded de]) ∧
    (c.dot = none → childAddedNotify c = [Event.childAdded c]) := by
  constructor
  · intro de h
    simp [childAddedNotify, h]
  · intro h
    simp [childAddedNotify, h]

/-- Witness for claim C9 at concrete inputs: dirD6 carries the grouping
dotG; fileA carries none. -/
theorem C9_witness :
    childAddedNotify dirD6 =
      [Event.childAdded dirD6, Event.childAdded dotG] ∧
    childAddedNotify fileA = [Event.childAdded fileA] :=
  ⟨(C9_childAddedNotify_events dirD6).1 dotG rfl,
   (C9_childAddedNotify_events fileA).2 rfl⟩

/-- A tree whose root has been deleted. -/
def sNoRoot : DirTreeState := { root := none, isBusy := false, jobQueue := [] }

/-- Claim C10: the query operations are total on an empty or root-less
tree: firstToplevel() is null when there is no root or the root has no
children, and url() is the empty string exactly when firstToplevel() is
null (given that toplevel entries carry the non-empty absolute path of a
successfully statted filesystem object).  Both queries are pure functions
of the state, so neither mutates the tree. -/
theorem C10_queries_total (s : DirTreeState) :
    (s.root = none → firstToplevel s = none) ∧
    (∀ r, s.root = some r → r.children = [] → firstToplevel s = none) ∧
    ((∀ e, firstToplevel s = some e → e.data.url ≠ "") →
      (url s = "" ↔ firstToplevel s = none)) := by
  refine ⟨?_, ?_, ?_⟩
  · intro h
    simp [firstToplevel, h]
  · intro r hr hc
    simp [firstToplevel, hr, hc]
  · intro hw
    cases h : firstToplevel s with
    | none => simp [url, h]
    | some e => simp [url, h, hw e h]

/-- Witness for claim C10 at concrete inputs: the root-less tree and the
fresh tree whose root has no children. -/
theorem C10_witness :
    firstToplevel sNoRoot = none ∧
    firstToplevel s0 = none ∧
    (url s0 = "" ↔ firstToplevel s0 = none) :=
  ⟨(C10_queries_total sNoRoot).1 rfl,
   (C10_queries_total s0).2.1 emptyRoot rfl rfl,
   (C10_queries_total s0).2.2 (fun _ h => Option.noConfusion h)⟩

/-- Claim C8: for every entry e, isTopLevel(e) returns true if and only if
e is non-null, e's parent exists, and that parent itself has no parent. -/
theorem C8_isTopLevel_iff (item : Option NodeRef) :
    isTopLevel item = true ↔
      ∃ i p, item = some i ∧ i.parent = some p ∧ p.parent = none := by
  cases item with
  | none => simp [isTopLevel]
  | some i =>
    cases h : i.parent with
    | none => simp [isTopLevel, h]
    | some p =>
      cases hp : p.parent with
      | none => simp [isTopLevel, h, hp]
      | some q => simp [isTopLevel, h, hp]

end QDirStat
